import Mathlib

/-!
Shallow embedding of the verus-gateway retrieval pipeline: domain errors and
request validation (internal/domain), the cache key function, the gzip
decompressor (internal/storage), the MIME detector, the JSON-RPC client retry
loop (pkg/verusrpc), the decryptor adapter (internal/crypto), the file-service
orchestration (internal/service) and the local-filesystem cache
(internal/cache).  Strings from the Go source are kept verbatim; byte slices
are `List Nat`, machine integers are `Int`/`Nat`, wall-clock instants are `Nat`
ticks, and external effects (the node RPC, the stdlib content sniffer, the
stdlib gzip stream decoder) are passed in as explicit oracles.
-/

deriving instance DecidableEq for Except

/-! ## internal/domain/errors.go -/

/-- Mirrors `domain.Error`: a coded error with HTTP status, an optional
underlying cause (Go wraps an `error`; modelled as its message) and a detail
list (Go uses a map; insertion order is kept). -/
structure DomainError where
  Code : String
  Message : String
  HTTPStatus : Nat
  Err : Option String
  Details : List (String × String)
deriving DecidableEq, Repr

def NewError (code message : String) (httpStatus : Nat) (err : Option String) : DomainError :=
  ⟨code, message, httpStatus, err, []⟩

def DomainError.WithDetail (e : DomainError) (key value : String) : DomainError :=
  { e with Details := e.Details ++ [(key, value)] }

def NewInvalidInputError (field reason : String) : DomainError :=
  ((NewError "INVALID_INPUT" ("invalid input: " ++ reason) 400 (some "invalid input")).WithDetail
      "field" field).WithDetail "reason" reason

def NewRPCError (method : String) (err : String) : DomainError :=
  (NewError "RPC_ERROR" ("rpc call failed: " ++ method) 502 (some err)).WithDetail "method" method

def NewDecryptionError (txid : String) (err : String) : DomainError :=
  (NewError "DECRYPTION_FAILED" "failed to decrypt data" 500 (some err)).WithDetail "txid" txid

def NewDecompressionError (reason : String) : DomainError :=
  (NewError "DECOMPRESSION_FAILED" ("decompression failed: " ++ reason) 500
      (some "decompression failed")).WithDetail "reason" reason

/-! ## internal/domain/file.go : data model -/

/-- Mirrors `domain.FileMetadata`.  `CreatedAt` is an optional instant. -/
structure FileMetadata where
  Filename : String
  Size : Int
  ContentType : String
  Extension : String
  Hash : String
  Compressed : Bool
  Encrypted : Bool
  CreatedAt : Option Nat
deriving DecidableEq, Repr, Inhabited

/-- Mirrors `domain.File`.  `RetrievedAt` is an instant in ticks. -/
structure File where
  TXID : String
  ChainID : String
  Content : List Nat
  Metadata : Option FileMetadata
  RetrievedAt : Nat
deriving DecidableEq, Repr, Inhabited

/-- Mirrors `domain.FileRequest`. -/
structure FileRequest where
  TXID : String
  EVK : String
  ChainID : String
  Filename : String
  UseCache : Bool
deriving DecidableEq, Repr, Inhabited

/-! Character classes of the validation regexes in file.go. -/

def isHexChar (c : Char) : Bool :=
  (48 ≤ c.toNat && c.toNat ≤ 57) || (97 ≤ c.toNat && c.toNat ≤ 102) ||
    (65 ≤ c.toNat && c.toNat ≤ 70)

def isAlphaNumChar (c : Char) : Bool :=
  (48 ≤ c.toNat && c.toNat ≤ 57) || (97 ≤ c.toNat && c.toNat ≤ 122) ||
    (65 ≤ c.toNat && c.toNat ≤ 90)

def isChainIDChar (c : Char) : Bool :=
  isAlphaNumChar c || c == '_' || c == '-'

def isFilenameChar (c : Char) : Bool :=
  isAlphaNumChar c || c == '.' || c == '_' || c == '-' || c == '(' || c == ')' ||
    c == ' ' || c == '[' || c == ']'

/-- `txidPattern`: `[a-fA-F0-9]` repeated exactly 64 times, anchored. -/
def txidPatternMatch (s : String) : Bool :=
  s.length == 64 && s.data.all isHexChar

/-- `evkPattern` of file.go: `zxviews` then at least 90 `[a-zA-Z0-9]`. -/
def evkPatternMatch (s : String) : Bool :=
  s.data.take 7 == "zxviews".data && decide (90 ≤ (s.data.drop 7).length) &&
    (s.data.drop 7).all isAlphaNumChar

/-- `filenamePattern`: one or more of `[a-zA-Z0-9._\-() \[\]]`, anchored. -/
def filenamePatternMatch (s : String) : Bool :=
  !s.data.isEmpty && s.data.all isFilenameChar

/-- `chainIDPattern`: one or more of `[a-zA-Z0-9_\-]`, anchored. -/
def chainIDPatternMatch (s : String) : Bool :=
  !s.data.isEmpty && s.data.all isChainIDChar

/-- Substring scan: does `needle` occur contiguously in the list?  Models both
`strings.Contains` and `bytes.Contains`. -/
def containsScan {a : Type} [BEq a] (needle : List a) : List a → Bool
  | [] => needle.isEmpty
  | h :: t => needle.isPrefixOf (h :: t) || containsScan needle t

/-- `strings.Contains hay needle`. -/
def strContains (hay needle : String) : Bool :=
  containsScan needle.data hay.data

/-- Mirrors `FileRequest.Validate` clause for clause, in source order. -/
def FileRequest.Validate (r : FileRequest) : Except DomainError Unit :=
  if r.TXID = "" then
    .error (NewInvalidInputError "txid" "txid is required")
  else if r.TXID.length ≠ 64 then
    .error (NewInvalidInputError "txid" "txid must be exactly 64 characters")
  else if ¬ txidPatternMatch r.TXID then
    .error (NewInvalidInputError "txid" "txid must be valid hex (0-9, a-f)")
  else if r.ChainID = "" then
    .error (NewInvalidInputError "chain_id" "chain_id is required")
  else if 32 < r.ChainID.length then
    .error (NewInvalidInputError "chain_id" "chain_id too long (max 32 characters)")
  else if ¬ chainIDPatternMatch r.ChainID then
    .error (NewInvalidInputError "chain_id" "chain_id contains invalid characters")
  else if r.Filename ≠ "" ∧ 255 < r.Filename.length then
    .error (NewInvalidInputError "filename" "filename too long (max 255 characters)")
  else if r.Filename ≠ "" ∧
      (strContains r.Filename ".." ∨ strContains r.Filename "/" ∨
        strContains r.Filename "\\") then
    .error (NewInvalidInputError "filename" "filename contains invalid path characters")
  else if r.Filename ≠ "" ∧ ¬ filenamePatternMatch r.Filename then
    .error (NewInvalidInputError "filename" "filename contains invalid characters")
  else if r.EVK ≠ "" ∧ (r.EVK.length < 95 ∨ 500 < r.EVK.length) then
    .error (NewInvalidInputError "evk" "viewing key has invalid length (must be 95-500 characters)")
  else if r.EVK ≠ "" ∧ ¬ evkPatternMatch r.EVK then
    .error (NewInvalidInputError "evk" "viewing key has invalid format (must start with 'zxviews')")
  else
    .ok ()

/-- Mirrors `FileRequest.CacheKey`. -/
def FileRequest.CacheKey (r : FileRequest) : String :=
  if r.EVK ≠ "" then
    r.ChainID ++ ":" ++ r.TXID ++ ":encrypted"
  else
    r.ChainID ++ ":" ++ r.TXID

/-! ## Claim C8: cache key injectivity and viewing-key collapse -/

theorem validate_ok_patterns (r : FileRequest) (h : r.Validate = .ok ()) :
    txidPatternMatch r.TXID = true ∧ chainIDPatternMatch r.ChainID = true := by
  unfold FileRequest.Validate at h
  by_cases c1 : r.TXID = ""
  · rw [if_pos c1] at h; exact Except.noConfusion h
  rw [if_neg c1] at h
  by_cases c2 : r.TXID.length ≠ 64
  · rw [if_pos c2] at h; exact Except.noConfusion h
  rw [if_neg c2] at h
  by_cases c3 : ¬ txidPatternMatch r.TXID = true
  · rw [if_pos c3] at h; exact Except.noConfusion h
  rw [if_neg c3] at h
  by_cases c4 : r.ChainID = ""
  · rw [if_pos c4] at h; exact Except.noConfusion h
  rw [if_neg c4] at h
  by_cases c5 : 32 < r.ChainID.length
  · rw [if_pos c5] at h; exact Except.noConfusion h
  rw [if_neg c5] at h
  by_cases c6 : ¬ chainIDPatternMatch r.ChainID = true
  · rw [if_pos c6] at h; exact Except.noConfusion h
  exact ⟨not_not.mp c3, not_not.mp c6⟩

theorem colon_not_hex : isHexChar ':' = false := by decide

theorem colon_not_chain : isChainIDChar ':' = false := by decide

theorem colon_not_mem_of_hex {l : List Char} (h : l.all isHexChar = true) : ':' ∉ l := by
  intro hm
  exact absurd (List.all_eq_true.mp h _ hm) (by decide)

theorem colon_not_mem_of_chain {l : List Char} (h : l.all isChainIDChar = true) : ':' ∉ l := by
  intro hm
  exact absurd (List.all_eq_true.mp h _ hm) (by decide)

/-- Splitting a character list at its first colon is unambiguous when the
prefixes are colon-free. -/
theorem colon_split {a c : List Char} (b d : List Char) (ha : ':' ∉ a) (hc : ':' ∉ c)
    (h : a ++ ':' :: b = c ++ ':' :: d) : a = c ∧ b = d := by
  induction a generalizing c with
  | nil =>
    cases c with
    | nil => simpa using h
    | cons y ys =>
      exfalso
      rw [List.nil_append] at h
      have : y = ':' := (List.cons.injEq _ _ _ _ ▸ h).1.symm
      exact hc (this ▸ List.mem_cons_self y ys)
  | cons x xs ih =>
    cases c with
    | nil =>
      exfalso
      rw [List.nil_append] at h
      have : x = ':' := (List.cons.injEq _ _ _ _ ▸ h).1
      exact ha (this ▸ List.mem_cons_self x xs)
    | cons y ys =>
      simp only [List.cons_append, List.cons.injEq] at h
      obtain ⟨hxy, hrest⟩ := h
      have hxs : ':' ∉ xs := fun hm => ha (List.mem_cons_of_mem _ hm)
      have hys : ':' ∉ ys := fun hm => hc (List.mem_cons_of_mem _ hm)
      obtain ⟨h1, h2⟩ := ih hxs hys hrest
      exact ⟨by rw [hxy, h1], h2⟩

theorem count_colon_append (a b : List Char) (ha : ':' ∉ a) :
    (a ++ ':' :: b).count ':' = 1 + b.count ':' := by
  rw [List.count_append, List.count_cons_self, List.count_eq_zero.mpr ha]
  omega

theorem colonStr_data : (":" : String).data = [':'] := rfl

theorem encStr_data : (":encrypted" : String).data = ':' :: "encrypted".data := rfl

theorem cacheKey_data_public (r : FileRequest) (h : r.EVK = "") :
    r.CacheKey.data = r.ChainID.data ++ ':' :: r.TXID.data := by
  unfold FileRequest.CacheKey
  rw [if_neg (not_not_intro h)]
  simp [String.data_append, colonStr_data]

theorem cacheKey_data_encrypted (r : FileRequest) (h : r.EVK ≠ "") :
    r.CacheKey.data = r.ChainID.data ++ ':' :: (r.TXID.data ++ ':' :: "encrypted".data) := by
  unfold FileRequest.CacheKey
  rw [if_pos h]
  simp [String.data_append, colonStr_data, encStr_data]

theorem txid_no_colon (r : FileRequest) (h : r.Validate = .ok ()) : ':' ∉ r.TXID.data := by
  have ht := (validate_ok_patterns r h).1
  unfold txidPatternMatch at ht
  exact colon_not_mem_of_hex ((Bool.and_eq_true _ _).mp ht).2

theorem chain_no_colon (r : FileRequest) (h : r.Validate = .ok ()) : ':' ∉ r.ChainID.data := by
  have hc := (validate_ok_patterns r h).2
  unfold chainIDPatternMatch at hc
  exact colon_not_mem_of_chain ((Bool.and_eq_true _ _).mp hc).2

theorem encrypted_no_colon : (':' ∈ "encrypted".data) = False := by decide

/-- C8: over requests that pass `Validate`, the cache key determines
`(ChainID, TXID)`, and two requests that agree on `(ChainID, TXID)` and both
carry a non-empty viewing key produce the same key (the key carries only a
fixed `:encrypted` marker, never the viewing-key material). -/
theorem cacheKey_injective_on_chain_txid (r1 r2 : FileRequest)
    (h1 : r1.Validate = .ok ()) (h2 : r2.Validate = .ok ()) :
    (r1.CacheKey = r2.CacheKey → r1.ChainID = r2.ChainID ∧ r1.TXID = r2.TXID) ∧
    (r1.ChainID = r2.ChainID → r1.TXID = r2.TXID → r1.EVK ≠ "" → r2.EVK ≠ "" →
      r1.CacheKey = r2.CacheKey) := by
  have htx1 := txid_no_colon r1 h1
  have htx2 := txid_no_colon r2 h2
  have hch1 := chain_no_colon r1 h1
  have hch2 := chain_no_colon r2 h2
  constructor
  · intro hk
    have hkd : r1.CacheKey.data = r2.CacheKey.data := by rw [hk]
    by_cases e1 : r1.EVK = "" <;> by_cases e2 : r2.EVK = ""
    · rw [cacheKey_data_public r1 e1, cacheKey_data_public r2 e2] at hkd
      obtain ⟨hc, ht⟩ := colon_split _ _ hch1 hch2 hkd
      exact ⟨String.ext_iff.mpr hc, String.ext_iff.mpr ht⟩
    · exfalso
      rw [cacheKey_data_public r1 e1, cacheKey_data_encrypted r2 e2] at hkd
      have hcount := congrArg (List.count ':') hkd
      rw [count_colon_append _ _ hch1, count_colon_append _ _ hch2,
        List.count_append, List.count_cons_self,
        List.count_eq_zero.mpr htx1, List.count_eq_zero.mpr htx2,
        List.count_eq_zero.mpr (encrypted_no_colon ▸ id)] at hcount
      omega
    · exfalso
      rw [cacheKey_data_encrypted r1 e1, cacheKey_data_public r2 e2] at hkd
      have hcount := congrArg (List.count ':') hkd
      rw [count_colon_append _ _ hch1, count_colon_append _ _ hch2,
        List.count_append, List.count_cons_self,
        List.count_eq_zero.mpr htx1, List.count_eq_zero.mpr htx2,
        List.count_eq_zero.mpr (encrypted_no_colon ▸ id)] at hcount
      omega
    · rw [cacheKey_data_encrypted r1 e1, cacheKey_data_encrypted r2 e2] at hkd
      obtain ⟨hc, hrest⟩ := colon_split _ _ hch1 hch2 hkd
      obtain ⟨ht, _⟩ := colon_split _ _ htx1 htx2 hrest
      exact ⟨String.ext_iff.mpr hc, String.ext_iff.mpr ht⟩
  · intro hceq htxeq e1 e2
    unfold FileRequest.CacheKey
    rw [if_pos e1, if_pos e2, hceq, htxeq]

def txidSampleA : String := "aaaaaaaaaaaaaaaaaaaaaaaaaaaaaaaaaaaaaaaaaaaaaaaaaaaaaaaaaaaaaaaa"

def evkSample1 : String :=
  "zxviewsaaaaaaaaaaaaaaaaaaaaaaaaaaaaaaaaaaaaaaaaaaaaaaaaaaaaaaaaaaaaaaaaaaaaaaaaaaaaaaaaaaaaaaaaaa"

def evkSample2 : String :=
  "zxviewsbbbbbbbbbbbbbbbbbbbbbbbbbbbbbbbbbbbbbbbbbbbbbbbbbbbbbbbbbbbbbbbbbbbbbbbbbbbbbbbbbbbbbbbbbb"

def reqEncSample1 : FileRequest := ⟨txidSampleA, evkSample1, "vrsc", "", true⟩

def reqEncSample2 : FileRequest := ⟨txidSampleA, evkSample2, "vrsc", "", true⟩

/-- Witness for C8 at concrete requests: two valid requests differing only in
their non-empty viewing keys share one cache key. -/
theorem cacheKey_injective_on_chain_txid_witness :
    reqEncSample1.CacheKey = reqEncSample2.CacheKey :=
  (cacheKey_injective_on_chain_txid reqEncSample1 reqEncSample2 (by decide) (by decide)).2
    rfl rfl (by decide) (by decide)

/-! ## internal/storage: Decompressor (gzip with bomb defence) -/

/-- Mirrors `storage.Decompressor`. -/
structure Decompressor where
  maxSize : Int
deriving DecidableEq, Repr

/-- `NewDecompressor`: a zero `MaxSize` falls back to the 100 MiB default. -/
def NewDecompressor (maxSize : Int) : Decompressor :=
  if maxSize = 0 then ⟨100 * 1024 * 1024⟩ else ⟨maxSize⟩

/-- `Decompressor.isGzipped` / `Detector.isGzipCompressed`: the two-byte gzip
magic test (contents shorter than two bytes are never gzipped). -/
def isGzippedBytes (content : List Nat) : Bool :=
  match content with
  | b0 :: b1 :: _ => b0 == 0x1F && b1 == 0x8B
  | _ => false

/-- Mirrors `limitedWriter`: the wrapped `bytes.Buffer` is `written`, `N` is
the remaining byte budget. -/
structure LimitedWriter where
  written : List Nat
  N : Int
deriving DecidableEq, Repr

/-- The unconditional tail of `limitedWriter.Write`: append the (possibly
already truncated) slice to the buffer, charge the budget, and report
`errSizeLimitExceeded` when the budget is now spent. -/
def LimitedWriter.writeRaw (l : LimitedWriter) (q : List Nat) : LimitedWriter × Nat × Bool :=
  if l.N - q.length ≤ 0 then (⟨l.written ++ q, l.N - q.length⟩, q.length, true)
  else (⟨l.written ++ q, l.N - q.length⟩, q.length, false)

/-- `limitedWriter.Write`: result is the writer after the call, the reported
count and whether `errSizeLimitExceeded` was returned. -/
def LimitedWriter.write (l : LimitedWriter) (p : List Nat) : LimitedWriter × Nat × Bool :=
  if l.N ≤ 0 then (l, 0, true)
  else if l.N < (p.length : Int) then l.writeRaw (p.take l.N.toNat)
  else l.writeRaw p

/-- One chunked-copy step sequence of `io.Copy(lim, gr)` over the
already-decoded gzip stream: the stdlib copies in 32 KiB chunks and stops at
the first write error.  `fuel` only forces structural recursion; every chunk
consumes at least one byte, so `fuel = length` never runs out. -/
def copyChunks : Nat → LimitedWriter → List Nat → LimitedWriter × Bool
  | _, l, [] => (l, false)
  | 0, l, _ :: _ => (l, false)
  | fuel + 1, l, b :: rest =>
    match l.write ((b :: rest).take 32768) with
    | (l2, _, true) => (l2, true)
    | (l2, _, false) => copyChunks fuel l2 ((b :: rest).drop 32768)

/-- `io.Copy(lim, gr)`: result is the final writer and whether the size-limit
error was raised. -/
def copyLoop (l : LimitedWriter) (decoded : List Nat) : LimitedWriter × Bool :=
  copyChunks decoded.length l decoded

/-- A Go `error` crossing the gzip pipeline: a typed domain error or a plain
`fmt.Errorf` / stdlib error with its message. -/
inductive GoErr where
  | domain (e : DomainError)
  | plain (msg : String)
deriving DecidableEq, Repr

/-- `error.Error()` for the two shapes above (a `domain.Error` renders as
`message: cause`). -/
def GoErr.string : GoErr → String
  | .domain e =>
    match e.Err with
    | some cause => e.Message ++ ": " ++ cause
    | none => e.Message
  | .plain msg => msg

/-- `Decompressor.decompressGzip`.  The stdlib gzip reader is the oracle
`gunzip`, which yields either a construction/read error or the fully decoded
stream of `content`. -/
def Decompressor.decompressGzip (d : Decompressor)
    (gunzip : List Nat → Except String (List Nat)) (content : List Nat) :
    Except GoErr (List Nat) :=
  match gunzip content with
  | .error e => .error (.plain e)
  | .ok decoded =>
    if (copyLoop ⟨[], d.maxSize⟩ decoded).2 then
      .error (.domain (NewDecompressionError
        ("decompressed size exceeds limit of " ++ toString d.maxSize ++ " bytes")))
    else
      .ok (copyLoop ⟨[], d.maxSize⟩ decoded).1.written

/-- `Decompressor.Decompress`. -/
def Decompressor.Decompress (d : Decompressor)
    (gunzip : List Nat → Except String (List Nat)) (content : List Nat) :
    Except DomainError (List Nat) :=
  if ¬ isGzippedBytes content then .ok content
  else
    match d.decompressGzip gunzip content with
    | .error err => .error (NewDecompressionError ("gzip decompression failed: " ++ err.string))
    | .ok decompressed => .ok decompressed

/-- `Decompressor.MustDecompress`: fall back to the original bytes on error. -/
def Decompressor.MustDecompress (d : Decompressor)
    (gunzip : List Nat → Except String (List Nat)) (content : List Nat) : List Nat :=
  match d.Decompress gunzip content with
  | .error _ => content
  | .ok decompressed => decompressed

def exceptErrCode {α : Type} : Except DomainError α → Option String
  | .error e => some e.Code
  | .ok _ => none

theorem write_small (l : LimitedWriter) (p : List Nat) (h : (p.length : Int) < l.N) :
    l.write p = (⟨l.written ++ p, l.N - p.length⟩, p.length, false) := by
  have h0 : (0 : Int) ≤ (p.length : Int) := Int.ofNat_nonneg _
  unfold LimitedWriter.write
  rw [if_neg (by omega), if_neg (by omega)]
  unfold LimitedWriter.writeRaw
  rw [if_neg (by omega)]

theorem write_hits_limit (l : LimitedWriter) (p : List Nat) (h0 : 0 < l.N)
    (h : l.N ≤ (p.length : Int)) : (l.write p).2.2 = true := by
  unfold LimitedWriter.write
  rw [if_neg (by omega)]
  by_cases hc : l.N < (p.length : Int)
  · rw [if_pos hc]
    unfold LimitedWriter.writeRaw
    have hlen : (((p.take l.N.toNat).length : Nat) : Int) = l.N := by
      rw [List.length_take]
      have h1 : l.N.toNat ≤ p.length := by omega
      rw [Nat.min_eq_left h1]
      omega
    rw [if_pos (by omega)]
  · rw [if_neg hc]
    unfold LimitedWriter.writeRaw
    rw [if_pos (by omega)]

theorem copyChunks_ok : ∀ (fuel : Nat) (decoded : List Nat) (l : LimitedWriter),
    decoded.length ≤ fuel → ((decoded.length : Int) < l.N) →
    copyChunks fuel l decoded = (⟨l.written ++ decoded, l.N - decoded.length⟩, false) := by
  intro fuel
  induction fuel with
  | zero =>
    intro decoded l hf h
    rw [Nat.le_zero] at hf
    rw [List.length_eq_zero] at hf
    subst hf
    simp [copyChunks]
  | succ fuel ih =>
    intro decoded l hf h
    match decoded with
    | [] => simp [copyChunks]
    | b :: rest =>
      rw [copyChunks]
      have htake : ((b :: rest).take 32768).length = min 32768 (b :: rest).length :=
        List.length_take _ _
      have htle : ((b :: rest).take 32768).length ≤ (b :: rest).length := by
        rw [htake]; omega
      have hts : (((b :: rest).take 32768).length : Int) < l.N := by
        have := h; omega
      rw [write_small l _ hts]
      dsimp only
      have hdrop : ((b :: rest).drop 32768).length = (b :: rest).length - 32768 :=
        List.length_drop _ _
      have hlen : 0 < (b :: rest).length := by simp
      have hfr : ((b :: rest).drop 32768).length ≤ fuel := by
        rw [hdrop]
        have : (b :: rest).length ≤ fuel + 1 := hf
        omega
      have hrec : (((b :: rest).drop 32768).length : Int) <
          l.N - ((b :: rest).take 32768).length := by
        rw [hdrop, htake]
        omega
      rw [ih ((b :: rest).drop 32768) ⟨l.written ++ (b :: rest).take 32768,
        l.N - ((b :: rest).take 32768).length⟩ hfr hrec]
      rw [Prod.mk.injEq]
      refine ⟨?_, rfl⟩
      rw [LimitedWriter.mk.injEq]
      constructor
      · rw [List.append_assoc, List.take_append_drop]
      · rw [hdrop, htake]
        push_cast
        omega

theorem copyLoop_ok (decoded : List Nat) (l : LimitedWriter)
    (h : (decoded.length : Int) < l.N) :
    copyLoop l decoded = (⟨l.written ++ decoded, l.N - decoded.length⟩, false) :=
  copyChunks_ok decoded.length decoded l le_rfl h

theorem copyChunks_limit : ∀ (fuel : Nat) (decoded : List Nat) (l : LimitedWriter),
    decoded.length ≤ fuel → 0 < l.N → l.N ≤ (decoded.length : Int) →
    (copyChunks fuel l decoded).2 = true := by
  intro fuel
  induction fuel with
  | zero =>
    intro decoded l hf h0 h
    rw [Nat.le_zero] at hf
    rw [List.length_eq_zero] at hf
    subst hf
    simp at h
    omega
  | succ fuel ih =>
    intro decoded l hf h0 h
    match decoded with
    | [] => simp at h; omega
    | b :: rest =>
      rw [copyChunks]
      by_cases hc : l.N ≤ (((b :: rest).take 32768).length : Int)
      · have hlim := write_hits_limit l ((b :: rest).take 32768) h0 hc
        rcases hw : l.write ((b :: rest).take 32768) with ⟨l2, n, e⟩
        rw [hw] at hlim
        simp only at hlim
        subst hlim
        rfl
      · push_neg at hc
        rw [write_small l _ hc]
        dsimp only
        have htake : ((b :: rest).take 32768).length = min 32768 (b :: rest).length :=
          List.length_take _ _
        have hdrop : ((b :: rest).drop 32768).length = (b :: rest).length - 32768 :=
          List.length_drop _ _
        have hfr : ((b :: rest).drop 32768).length ≤ fuel := by
          rw [hdrop]
          have : (b :: rest).length ≤ fuel + 1 := hf
          have : 0 < (b :: rest).length := by simp
          omega
        exact ih ((b :: rest).drop 32768)
          ⟨l.written ++ (b :: rest).take 32768, l.N - ((b :: rest).take 32768).length⟩
          hfr
          (by dsimp only; omega)
          (by dsimp only; rw [hdrop, htake] at *; push_cast; omega)

theorem copyLoop_limit (decoded : List Nat) (l : LimitedWriter)
    (h0 : 0 < l.N) (h : l.N ≤ (decoded.length : Int)) :
    (copyLoop l decoded).2 = true :=
  copyChunks_limit decoded.length decoded l le_rfl h0 h

/-! ## Claim C6: characterisation of Decompress -/

/-- C6 (amended): `Decompress` returns non-gzipped input unchanged; on a
well-formed gzip stream it returns the decoded bytes when their size is
strictly below `maxSize`; and it fails with a `DECOMPRESSION_FAILED` error as
soon as the decoded size reaches `maxSize` — the limited writer also errors at
exactly `maxSize`, not only above it. -/
theorem decompress_characterisation (d : Decompressor)
    (gunzip : List Nat → Except String (List Nat)) (content b : List Nat) :
    (isGzippedBytes content = false → d.Decompress gunzip content = .ok content) ∧
    (isGzippedBytes content = true → gunzip content = .ok b →
      (b.length : Int) < d.maxSize →
      d.Decompress gunzip content = .ok b) ∧
    (isGzippedBytes content = true → gunzip content = .ok b →
      0 < d.maxSize → d.maxSize ≤ (b.length : Int) →
      exceptErrCode (d.Decompress gunzip content) = some "DECOMPRESSION_FAILED") := by
  refine ⟨?_, ?_, ?_⟩
  · intro hng
    unfold Decompressor.Decompress
    rw [if_pos (by simp [hng])]
  · intro hg hok hlt
    unfold Decompressor.Decompress
    rw [if_neg (by simp [hg])]
    unfold Decompressor.decompressGzip
    rw [hok]
    dsimp only
    rw [copyLoop_ok b ⟨[], d.maxSize⟩ hlt]
    dsimp only
    rw [if_neg (by simp)]
    simp
  · intro hg hok hpos hge
    unfold Decompressor.Decompress
    rw [if_neg (by simp [hg])]
    unfold Decompressor.decompressGzip
    rw [hok]
    dsimp only
    rw [if_pos (copyLoop_limit b ⟨[], d.maxSize⟩ hpos hge)]
    simp [exceptErrCode, NewDecompressionError, NewError, DomainError.WithDetail]

def gunzipOneByte : List Nat → Except String (List Nat) := fun _ => .ok [9]

/-- C6 counterexample: with `maxSize = 1` and a gzip payload whose decoded
stream is a single byte — a decompressed size at (not above) the cap —
`Decompress` fails with `DECOMPRESSION_FAILED` instead of succeeding as the
claim states. -/
theorem decompress_at_cap_fails :
    exceptErrCode (Decompressor.Decompress ⟨1⟩ gunzipOneByte [31, 139]) =
      some "DECOMPRESSION_FAILED" := by decide

def gunzipThree : List Nat → Except String (List Nat) := fun _ => .ok [7, 8, 9]

/-- Witness for C6 at concrete inputs: non-gzip passthrough, in-cap success
and at/over-cap failure. -/
theorem decompress_characterisation_witness :
    Decompressor.Decompress ⟨4⟩ gunzipThree [1, 2, 3] = .ok [1, 2, 3] ∧
    Decompressor.Decompress ⟨4⟩ gunzipThree [31, 139, 0] = .ok [7, 8, 9] ∧
    exceptErrCode (Decompressor.Decompress ⟨2⟩ gunzipThree [31, 139, 0]) =
      some "DECOMPRESSION_FAILED" :=
  ⟨(decompress_characterisation ⟨4⟩ gunzipThree [1, 2, 3] [7, 8, 9]).1 (by decide),
   (decompress_characterisation ⟨4⟩ gunzipThree [31, 139, 0] [7, 8, 9]).2.1 (by decide)
     rfl (by decide),
   (decompress_characterisation ⟨2⟩ gunzipThree [31, 139, 0] [7, 8, 9]).2.2 (by decide)
     rfl (by decide) (by decide)⟩

/-! ## internal/storage/detector.go -/

/-- The magic-byte table of `detectBySignature`, in source order; string
literals are spelled as ASCII bytes. -/
def detectorSignatures : List (List Nat × String) :=
  [([0xFF, 0xD8, 0xFF], "image/jpeg"),
   ([0x89, 0x50, 0x4E, 0x47], "image/png"),
   ([0x47, 0x49, 0x46, 0x38, 0x37, 0x61], "image/gif"),
   ([0x47, 0x49, 0x46, 0x38, 0x39, 0x61], "image/gif"),
   ([0x52, 0x49, 0x46, 0x46], "image/webp"),
   ([0x42, 0x4D], "image/bmp"),
   ([0x00, 0x00, 0x00, 0x18, 0x66, 0x74, 0x79, 0x70], "video/mp4"),
   ([0x1A, 0x45, 0xDF, 0xA3], "video/webm"),
   ([0x49, 0x44, 0x33], "audio/mpeg"),
   ([0xFF, 0xFB], "audio/mpeg"),
   ([0x4F, 0x67, 0x67, 0x53], "audio/ogg"),
   ([0x52, 0x49, 0x46, 0x46], "audio/wav"),
   ([0x25, 0x50, 0x44, 0x46], "application/pdf"),
   ([0x50, 0x4B, 0x03, 0x04], "application/zip"),
   ([0x1F, 0x8B], "application/x-gzip"),
   ([0x52, 0x61, 0x72, 0x21], "application/x-rar-compressed"),
   ([0x37, 0x7A, 0xBC, 0xAF, 0x27, 0x1C], "application/x-7z-compressed")]

def riffBytes : List Nat := [0x52, 0x49, 0x46, 0x46]

def waveBytes : List Nat := [0x57, 0x41, 0x56, 0x45]

def webpBytes : List Nat := [0x57, 0x45, 0x42, 0x50]

def aviBytes : List Nat := [0x41, 0x56, 0x49, 0x20]

/-- Mirrors `Detector.detectBySignature`: magic-byte matching with the RIFF
disambiguation on bytes 8..12, applied only to contents of 16 bytes or more. -/
def detectBySignature (content : List Nat) : String :=
  if content.length < 16 then ""
  else
    match detectorSignatures.find? (fun sig => sig.1.isPrefixOf content) with
    | none => ""
    | some sig =>
      if riffBytes.isPrefixOf content ∧ 12 < content.length then
        if containsScan waveBytes ((content.drop 8).take 4) then "audio/wav"
        else if containsScan webpBytes ((content.drop 8).take 4) then "image/webp"
        else if containsScan aviBytes ((content.drop 8).take 4) then "video/x-msvideo"
        else sig.2
      else sig.2

/-- Mirrors `Detector.DetectMIME`; `sniff` is the stdlib
`http.DetectContentType` oracle. -/
def Detector.DetectMIME (sniff : List Nat → String) (content : List Nat) : String :=
  if content.length = 0 then "application/octet-stream"
  else
    if sniff content == "application/octet-stream" ||
        sniff content == "text/plain; charset=utf-8" then
      if detectBySignature content ≠ "" then detectBySignature content
      else sniff content
    else sniff content

/-- The MIME-to-extension map of `DetectExtension`, as an association list. -/
def extMap : List (String × String) :=
  [("image/jpeg", "jpg"), ("image/png", "png"), ("image/gif", "gif"),
   ("image/webp", "webp"), ("image/svg+xml", "svg"), ("image/bmp", "bmp"),
   ("video/mp4", "mp4"), ("video/webm", "webm"), ("video/mpeg", "mpeg"),
   ("audio/mpeg", "mp3"), ("audio/ogg", "ogg"), ("audio/wav", "wav"),
   ("application/pdf", "pdf"), ("application/zip", "zip"),
   ("application/x-gzip", "gz"), ("application/json", "json"),
   ("application/xml", "xml"), ("text/html", "html"), ("text/css", "css"),
   ("text/javascript", "js"), ("text/plain", "txt"),
   ("application/octet-stream", "bin")]

/-- Mirrors `Detector.DetectExtension`. -/
def Detector.DetectExtension (sniff : List Nat → String) (content : List Nat) : String :=
  match extMap.lookup (Detector.DetectMIME sniff content) with
  | some ext => ext
  | none => "bin"

/-- The suffix of a character list starting at its last dot (dot included). -/
def lastDotSuffix : List Char → Option (List Char)
  | [] => none
  | c :: rest =>
    match lastDotSuffix rest with
    | some suffix => some suffix
    | none => if c == '.' then some (c :: rest) else none

/-- `filepath.Ext` for plain file names (validated names carry no path
separators). -/
def filepathExt (s : String) : String :=
  match lastDotSuffix s.data with
  | some suffix => String.mk suffix
  | none => ""

/-- `strings.TrimPrefix ext "."`. -/
def trimDot (s : String) : String :=
  match s.data with
  | '.' :: rest => String.mk rest
  | _ => s

/-- Mirrors `Detector.DetectType`.  The Go method always returns a nil error,
so the result is the metadata alone; `Hash`, `Encrypted` and `CreatedAt` keep
their zero values. -/
def Detector.DetectType (sniff : List Nat → String) (content : List Nat)
    (filename : String) : FileMetadata :=
  { Filename := filename,
    Size := (content.length : Int),
    ContentType := Detector.DetectMIME sniff content,
    Extension :=
      if filename ≠ "" ∧ filepathExt filename ≠ "" then trimDot (filepathExt filename)
      else Detector.DetectExtension sniff content,
    Hash := "",
    Compressed := isGzippedBytes content,
    Encrypted := false,
    CreatedAt := none }

/-! ## Claim C10: the signature table needs at least 16 bytes -/

/-- C10: for content shorter than 16 bytes whose standard sniff yields
`application/octet-stream` or generic `text/plain`, `DetectMIME` never
reports a signature-table type (in particular not `application/pdf`). -/
theorem detectMIME_short_input_no_signature (sniff : List Nat → String)
    (content : List Nat) (hlen : content.length < 16)
    (hs : sniff content = "application/octet-stream" ∨
      sniff content = "text/plain; charset=utf-8") :
    (∀ p ∈ detectorSignatures, Detector.DetectMIME sniff content ≠ p.2) ∧
    Detector.DetectMIME sniff content ≠ "application/pdf" := by
  have hsig : detectBySignature content = "" := by
    unfold detectBySignature
    rw [if_pos hlen]
  have hmime : Detector.DetectMIME sniff content = "application/octet-stream" ∨
      Detector.DetectMIME sniff content = "text/plain; charset=utf-8" := by
    unfold Detector.DetectMIME
    by_cases h0 : content.length = 0
    · rw [if_pos h0]
      left
      rfl
    · rw [if_neg h0]
      rcases hs with h | h
      · rw [h]
        rw [if_pos (by simp), hsig, if_neg (by simp)]
        left
        rfl
      · rw [h]
        rw [if_pos (by simp), hsig, if_neg (by simp)]
        right
        rfl
  have hA : ∀ q ∈ detectorSignatures, ("application/octet-stream" : String) ≠ q.2 := by decide
  have hB : ∀ q ∈ detectorSignatures, ("text/plain; charset=utf-8" : String) ≠ q.2 := by decide
  constructor
  · intro p hp
    rcases hmime with h | h
    · rw [h]; exact hA p hp
    · rw [h]; exact hB p hp
  · rcases hmime with h | h <;> rw [h] <;> decide

def sniffTextPlain : List Nat → String := fun _ => "text/plain; charset=utf-8"

def shortPdfBytes : List Nat := [0x25, 0x50, 0x44, 0x46]

/-- Witness for C10: a four-byte payload starting with the PDF magic, sniffed
as generic text, is not classified as any signature type. -/
theorem detectMIME_short_input_no_signature_witness :
    (∀ p ∈ detectorSignatures, Detector.DetectMIME sniffTextPlain shortPdfBytes ≠ p.2) ∧
    Detector.DetectMIME sniffTextPlain shortPdfBytes ≠ "application/pdf" :=
  detectMIME_short_input_no_signature sniffTextPlain shortPdfBytes (by decide) (Or.inr rfl)

/-! ## pkg/verusrpc/client.go: the retry loop of Call -/

/-- Retry-relevant fields of `verusrpc.Client` (delays in milliseconds). -/
structure RpcClient where
  maxRetries : Nat
  retryDelay : Nat
deriving DecidableEq, Repr

/-- `NewClient` defaulting: `MaxRetries` 0 becomes 3, `RetryDelay` 0 becomes
500 ms. -/
def NewRpcClient (maxRetries retryDelay : Nat) : RpcClient :=
  ⟨if maxRetries = 0 then 3 else maxRetries, if retryDelay = 0 then 500 else retryDelay⟩

/-- The error of one `Client.call` attempt: a typed JSON-RPC error object
(`*RPCError`, the only error the type assertion in `Call` recognises) or a
plain wrapped error — transport failure, non-200 HTTP status, marshal or read
failure. -/
inductive CallError where
  | rpcErr (code : Int) (message : String)
  | plainErr (msg : String)
deriving DecidableEq, Repr

/-- What `Client.Call` returns on failure: an error propagated as-is, or the
final `rpc call failed after %d attempts` wrap around the last cause. -/
inductive CallFailure where
  | immediate (e : CallError)
  | exhausted (attempts : Nat) (last : CallError)
deriving DecidableEq, Repr

/-- The reserved-band test in `Call`: only a `*RPCError` with code in
`[-32099, -32000]` suppresses the retry. -/
def isReservedRPCError : CallError → Bool
  | .rpcErr code _ => decide (-32099 ≤ code) && decide (code ≤ -32000)
  | .plainErr _ => false

/-- One `Call` invocation summarised: the returned value, how many attempts
ran, and the sleeps taken between attempts (in order). -/
structure CallOutcome where
  result : Except CallFailure String
  attemptsMade : Nat
  waits : List Nat
deriving DecidableEq, Repr

/-- The backoff sleep taken before attempt number `attempt` (none before the
first): `retryDelay * attempt`. -/
def waitFor (c : RpcClient) (attempt : Nat) : List Nat :=
  if 0 < attempt then [c.retryDelay * attempt] else []

/-- The `for attempt := 0; attempt <= maxRetries` loop of `Client.Call`, with
`remaining` further iterations allowed after the current one; the per-attempt
outcome of `Client.call` is the oracle `attempts`.  Context cancellation is
not modelled (no deadline in the claims). -/
def callLoop (c : RpcClient) (attempts : Nat → Except CallError String) :
    Nat → Nat → CallOutcome
  | 0, attempt =>
    match attempts attempt with
    | .ok r => ⟨.ok r, 1, waitFor c attempt⟩
    | .error e =>
      if isReservedRPCError e then ⟨.error (.immediate e), 1, waitFor c attempt⟩
      else ⟨.error (.exhausted (c.maxRetries + 1) e), 1, waitFor c attempt⟩
  | remaining + 1, attempt =>
    match attempts attempt with
    | .ok r => ⟨.ok r, 1, waitFor c attempt⟩
    | .error e =>
      if isReservedRPCError e then ⟨.error (.immediate e), 1, waitFor c attempt⟩
      else
        ⟨(callLoop c attempts remaining (attempt + 1)).result,
         (callLoop c attempts remaining (attempt + 1)).attemptsMade + 1,
         waitFor c attempt ++ (callLoop c attempts remaining (attempt + 1)).waits⟩

/-- `Client.Call`. -/
def RpcClient.Call (c : RpcClient) (attempts : Nat → Except CallError String) :
    CallOutcome :=
  callLoop c attempts c.maxRetries 0

/-- The concatenated sleeps of the attempts `attempt`, …, `attempt + r`. -/
def waitsRange (c : RpcClient) : Nat → Nat → List Nat
  | attempt, 0 => waitFor c attempt
  | attempt, r + 1 => waitFor c attempt ++ waitsRange c (attempt + 1) r

theorem waitsRange_closed (c : RpcClient) : ∀ (r a : Nat),
    waitsRange c (a + 1) r = (List.range (r + 1)).map (fun j => c.retryDelay * (a + 1 + j)) := by
  intro r
  induction r with
  | zero =>
    intro a
    have hr1 : List.range 1 = [0] := rfl
    simp [waitsRange, waitFor, hr1]
  | succ r ih =>
    intro a
    rw [waitsRange, ih (a + 1)]
    rw [waitFor, if_pos (Nat.succ_pos a)]
    have hsplit : (List.range (r + 1 + 1)).map (fun j => c.retryDelay * (a + 1 + j)) =
        c.retryDelay * (a + 1) ::
          (List.range (r + 1)).map (fun j => c.retryDelay * (a + 1 + 1 + j)) := by
      rw [List.range_succ_eq_map, List.map_cons, List.map_map]
      refine congrArg₂ _ (by simp) ?_
      refine List.map_congr_left ?_
      intro j _
      simp only [Function.comp_apply]
      refine congrArg (fun x => c.retryDelay * x) ?_
      omega
    rw [hsplit]
    rfl

theorem callLoop_all_fail (c : RpcClient) (attempts : Nat → Except CallError String) :
    ∀ (remaining attempt : Nat),
    (∀ i, attempt ≤ i → i ≤ attempt + remaining → ∃ m, attempts i = .error (.plainErr m)) →
    (callLoop c attempts remaining attempt).attemptsMade = remaining + 1 ∧
    (callLoop c attempts remaining attempt).waits = waitsRange c attempt remaining ∧
    ∃ m, attempts (attempt + remaining) = .error (.plainErr m) ∧
      (callLoop c attempts remaining attempt).result =
        .error (.exhausted (c.maxRetries + 1) (.plainErr m)) := by
  intro remaining
  induction remaining with
  | zero =>
    intro attempt hall
    obtain ⟨m, hm⟩ := hall attempt le_rfl (by omega)
    rw [callLoop, hm]
    dsimp only
    rw [if_neg (by simp [isReservedRPCError])]
    refine ⟨rfl, rfl, m, ?_, rfl⟩
    simpa using hm
  | succ r ih =>
    intro attempt hall
    obtain ⟨m, hm⟩ := hall attempt le_rfl (by omega)
    rw [callLoop, hm]
    dsimp only
    rw [if_neg (by simp [isReservedRPCError])]
    obtain ⟨hn, hw, m2, hm2, hres⟩ := ih (attempt + 1)
      (fun i hi1 hi2 => hall i (by omega) (by omega))
    refine ⟨by rw [hn], by rw [hw]; rfl, m2, ?_, hres⟩
    have harith : attempt + 1 + r = attempt + (r + 1) := by omega
    rw [harith] at hm2
    exact hm2

/-- C2: when every attempt fails with a plain (transport / non-200) error,
`Call` makes exactly `maxRetries + 1` attempts, sleeps `retryDelay * i` before
attempt `i`, and returns the after-N-attempts wrap around the last cause;
when the first attempt yields a JSON-RPC error in the reserved band
`[-32099, -32000]`, `Call` makes exactly one attempt, sleeps never, and
propagates that error unwrapped. -/
theorem rpc_call_retry_semantics (c : RpcClient)
    (attempts : Nat → Except CallError String) :
    ((∀ i, i ≤ c.maxRetries → ∃ m, attempts i = .error (.plainErr m)) →
      (c.Call attempts).attemptsMade = c.maxRetries + 1 ∧
      (c.Call attempts).waits =
        (List.range c.maxRetries).map (fun i => c.retryDelay * (i + 1)) ∧
      ∃ m, attempts c.maxRetries = .error (.plainErr m) ∧
        (c.Call attempts).result = .error (.exhausted (c.maxRetries + 1) (.plainErr m))) ∧
    (∀ code msg, attempts 0 = .error (.rpcErr code msg) →
      -32099 ≤ code → code ≤ -32000 →
      (c.Call attempts).attemptsMade = 1 ∧
      (c.Call attempts).waits = [] ∧
      (c.Call attempts).result = .error (.immediate (.rpcErr code msg))) := by
  constructor
  · intro hall
    obtain ⟨hn, hw, m, hm, hres⟩ := callLoop_all_fail c attempts c.maxRetries 0
      (fun i hi1 hi2 => hall i (by omega))
    refine ⟨hn, ?_, m, by simpa using hm, hres⟩
    unfold RpcClient.Call
    rw [hw]
    match hmr : c.maxRetries with
    | 0 => simp [waitsRange, waitFor]
    | r + 1 =>
      rw [waitsRange]
      rw [waitFor, if_neg (by omega)]
      rw [List.nil_append]
      rw [show (0 : Nat) + 1 = 0 + 1 from rfl]
      rw [waitsRange_closed c r 0]
      refine List.map_congr_left ?_
      intro j _
      refine congrArg (fun x => c.retryDelay * x) ?_
      omega
  · intro code msg h0 hlow hhigh
    have hband : isReservedRPCError (.rpcErr code msg) = true := by
      simp [isReservedRPCError]
      omega
    unfold RpcClient.Call
    cases hmr : c.maxRetries with
    | zero =>
      rw [callLoop, h0]
      dsimp only
      rw [if_pos hband]
      exact ⟨rfl, rfl, rfl⟩
    | succ r =>
      rw [callLoop, h0]
      dsimp only
      rw [if_pos hband]
      exact ⟨rfl, rfl, rfl⟩

def rpcClientSample : RpcClient := ⟨2, 100⟩

def rpcAlwaysFail : Nat → Except CallError String := fun _ => .error (.plainErr "boom")

def rpcReservedFirst : Nat → Except CallError String :=
  fun _ => .error (.rpcErr (-32001) "method not found")

/-- Witness for C2 with `maxRetries = 2`, `retryDelay = 100`: three attempts
and sleeps `[100, 200]` on persistent transport failure; a single attempt and
an unwrapped error on a reserved-band JSON-RPC failure. -/
theorem rpc_call_retry_semantics_witness :
    ((rpcClientSample.Call rpcAlwaysFail).attemptsMade = 3 ∧
     (rpcClientSample.Call rpcAlwaysFail).waits = [100, 200] ∧
     (rpcClientSample.Call rpcAlwaysFail).result =
       .error (.exhausted 3 (.plainErr "boom")) ∧
     (rpcClientSample.Call rpcReservedFirst).attemptsMade = 1 ∧
     (rpcClientSample.Call rpcReservedFirst).waits = [] ∧
     (rpcClientSample.Call rpcReservedFirst).result =
       .error (.immediate (.rpcErr (-32001) "method not found"))) := by
  obtain ⟨h1, h2, m, hm, h3⟩ := (rpc_call_retry_semantics rpcClientSample rpcAlwaysFail).1
    (fun i _ => ⟨"boom", rfl⟩)
  obtain ⟨g1, g2, g3⟩ := (rpc_call_retry_semantics rpcClientSample rpcReservedFirst).2
    (-32001) "method not found" rfl (by decide) (by decide)
  have hmb : m = "boom" := by
    have hcmp : (Except.error (CallError.plainErr m) : Except CallError String) =
        Except.error (CallError.plainErr "boom") := by
      rw [show Except.error (CallError.plainErr m) = rpcAlwaysFail 2 from hm.symm]
      rfl
    simpa using hcmp
  subst hmb
  exact ⟨h1, by simpa using h2, h3, g1, g2, g3⟩

/-! ## internal/crypto/decrypt.go -/

/-- `reTXID` of decrypt.go: `^[0-9a-fA-F]{64}$`. -/
def reTXIDMatch (s : String) : Bool :=
  s.length == 64 && s.data.all isHexChar

/-- The `[0-9a-z]` class of `reEVK`. -/
def isLowerAlnumChar (c : Char) : Bool :=
  (48 ≤ c.toNat && c.toNat ≤ 57) || (97 ≤ c.toNat && c.toNat ≤ 122)

/-- `reEVK` of decrypt.go: `^zxviews[0-9a-z]+$`. -/
def reEVKMatch (s : String) : Bool :=
  s.data.take 7 == "zxviews".data && !(s.data.drop 7).isEmpty &&
    (s.data.drop 7).all isLowerAlnumChar

/-- `crypto.ValidateTXID` (`ErrInvalidTXID` is `errors.New "invalid txid"`). -/
def ValidateTXID (txid : String) : Except String Unit :=
  if ¬ reTXIDMatch txid then .error "invalid txid" else .ok ()

/-- `crypto.ValidateEVK` (`ErrInvalidEVK` is `errors.New "invalid evk"`). -/
def ValidateEVK (evk : String) : Except String Unit :=
  if ¬ reEVKMatch evk then .error "invalid evk" else .ok ()

/-- One hexadecimal digit's value. -/
def hexVal (c : Char) : Option Nat :=
  if 48 ≤ c.toNat ∧ c.toNat ≤ 57 then some (c.toNat - 48)
  else if 97 ≤ c.toNat ∧ c.toNat ≤ 102 then some (c.toNat - 87)
  else if 65 ≤ c.toNat ∧ c.toNat ≤ 70 then some (c.toNat - 55)
  else none

/-- `hex.DecodeString`: byte pairs; fails on odd length or a non-hex digit. -/
def hexDecode : List Char → Option (List Nat)
  | [] => some []
  | [_] => none
  | a :: b :: rest =>
    match hexVal a, hexVal b, hexDecode rest with
    | some ha, some hb, some tail => some ((ha * 16 + hb) :: tail)
    | _, _, _ => none

/-- The result of `Decryptor.DecryptData` together with whether the
`decryptdata` RPC was actually reached. -/
structure DecryptOutcome where
  rpcIssued : Bool
  result : Except DomainError (List Nat)
deriving DecidableEq, Repr

/-- `Decryptor.DecryptData`.  `rpcResult` is the oracle standing for
`client.DecryptData(ctx, txid, evk)` — the full `Call` plus response-shape
parsing — and `rpcIssued` records whether that call was reached. -/
def Decryptor.DecryptData (rpcResult : Except String String) (txid evk : String) :
    DecryptOutcome :=
  match ValidateTXID txid with
  | .error e => ⟨false, .error (NewInvalidInputError "txid" e)⟩
  | .ok () =>
    match ValidateEVK evk with
    | .error e => ⟨false, .error (NewInvalidInputError "evk" e)⟩
    | .ok () =>
      match rpcResult with
      | .error e => ⟨true, .error (NewDecryptionError txid e)⟩
      | .ok hexData =>
        match hexDecode hexData.data with
        | none => ⟨true, .error (NewDecryptionError txid "failed to decode hex data")⟩
        | some data => ⟨true, .ok data⟩

/-! ## internal/service/file_service.go and the handler error translation -/

/-- The decompressor `NewFileService` builds: `MaxSize` 100 MiB. -/
def serviceDecompressor : Decompressor := NewDecompressor (100 * 1024 * 1024)

/-- Step 6 of `GetFile`: decompression failure falls back to the raw bytes. -/
def decompressOrRaw (gunzip : List Nat → Except String (List Nat))
    (encryptedData : List Nat) : List Nat :=
  match serviceDecompressor.Decompress gunzip encryptedData with
  | .error _ => encryptedData
  | .ok d => d

/-- The result of `FileService.GetFile` together with whether the node RPC was
reached. -/
structure GetFileOutcome where
  rpcIssued : Bool
  result : Except DomainError File
deriving DecidableEq, Repr

/-- `FileService.GetFile`.  Oracles: `cacheGet` is the cache lookup outcome
for `req.CacheKey()` (`none` covers a missing cache, a miss and any cache
error — all three fall through identically), `chainClient` the registry
lookup, `rpcResult` the node's `decryptdata` reply for `(req.TXID, req.EVK)`,
`gunzip` the stdlib gzip decoder, `sniff` the stdlib content sniffer; `now`
is the current instant.  The detached cache-set goroutine never affects the
returned value and is not part of this outcome. -/
def FileService.GetFile (cacheGet : Option File) (chainClient : Except DomainError Unit)
    (rpcResult : Except String String) (gunzip : List Nat → Except String (List Nat))
    (sniff : List Nat → String) (now : Nat) (req : FileRequest) : GetFileOutcome :=
  match req.Validate with
  | .error e => ⟨false, .error e⟩
  | .ok () =>
    match (if req.UseCache then cacheGet else none) with
    | some cached => ⟨false, .ok cached⟩
    | none =>
      match chainClient with
      | .error e => ⟨false, .error e⟩
      | .ok () =>
        match Decryptor.DecryptData rpcResult req.TXID req.EVK with
        | ⟨issued, .error e⟩ => ⟨issued, .error e⟩
        | ⟨issued, .ok encryptedData⟩ =>
          ⟨issued, .ok
            { TXID := req.TXID,
              ChainID := req.ChainID,
              Content := decompressOrRaw gunzip encryptedData,
              Metadata := some (Detector.DetectType sniff
                (decompressOrRaw gunzip encryptedData) req.Filename),
              RetrievedAt := now }⟩

/-- An error reaching `FileHandler.writeError`: a typed `*domain.Error` or any
other Go error. -/
inductive ServeError where
  | domainErr (e : DomainError)
  | genericErr (msg : String)
deriving DecidableEq, Repr

/-- `FileHandler.writeError`: the HTTP status and error code written for an
error — a `*domain.Error` supplies its own `HTTPStatus` and `Code`, anything
else becomes `500 INTERNAL_ERROR`. -/
def writeErrorStatus : ServeError → Nat × String
  | .domainErr e => (e.HTTPStatus, e.Code)
  | .genericErr _ => (500, "INTERNAL_ERROR")

/-- Status/code view of a service result, as the handler would write it. -/
def resultStatusCode {α : Type} : Except DomainError α → Option (Nat × String)
  | .error e => some (writeErrorStatus (.domainErr e))
  | .ok _ => none

/-! ## Claims C3, C4, C9 over the GetFile pipeline -/

theorem reTXID_eq_txidPattern (s : String) : reTXIDMatch s = txidPatternMatch s := rfl

/-- With an empty viewing key the decryptor rejects during validation, before
any RPC: both branches report `rpcIssued = false`. -/
theorem decryptData_empty_evk (rpcResult : Except String String) (txid : String) :
    Decryptor.DecryptData rpcResult txid "" =
      if ¬ reTXIDMatch txid then ⟨false, .error (NewInvalidInputError "txid" "invalid txid")⟩
      else ⟨false, .error (NewInvalidInputError "evk" "invalid evk")⟩ := by
  unfold Decryptor.DecryptData ValidateTXID ValidateEVK
  by_cases h : reTXIDMatch txid = true
  · rw [if_neg (not_not_intro h), if_pos (by decide), if_neg (not_not_intro h)]
  · rw [if_pos h, if_pos h]

/-- C3 (amended): a `GetFile` whose node RPC fails after retries returns the
decryptor's wrap — code `DECRYPTION_FAILED`, HTTP status 500 — and that is
what the handler writes; `RPC_ERROR`/502 is never produced on this path. -/
theorem getFile_rpc_failure_decryption_error (req : FileRequest) (cacheGet : Option File)
    (gunzip : List Nat → Except String (List Nat)) (sniff : List Nat → String)
    (now : Nat) (msg : String)
    (hv : req.Validate = .ok ())
    (hcache : (if req.UseCache then cacheGet else none) = none)
    (hevk : reEVKMatch req.EVK = true) :
    FileService.GetFile cacheGet (.ok ()) (.error msg) gunzip sniff now req =
      ⟨true, .error (NewDecryptionError req.TXID msg)⟩ ∧
    resultStatusCode
        (FileService.GetFile cacheGet (.ok ()) (.error msg) gunzip sniff now req).result =
      some (500, "DECRYPTION_FAILED") := by
  have htx : reTXIDMatch req.TXID = true := by
    rw [reTXID_eq_txidPattern]
    exact (validate_ok_patterns req hv).1
  have hmain : FileService.GetFile cacheGet (.ok ()) (.error msg) gunzip sniff now req =
      ⟨true, .error (NewDecryptionError req.TXID msg)⟩ := by
    unfold FileService.GetFile
    rw [hv]
    dsimp only
    rw [hcache]
    dsimp only
    unfold Decryptor.DecryptData ValidateTXID ValidateEVK
    rw [if_neg (not_not_intro htx), if_neg (not_not_intro hevk)]
  refine ⟨hmain, ?_⟩
  rw [hmain]
  simp [resultStatusCode, writeErrorStatus, NewDecryptionError, NewError, DomainError.WithDetail]

def gunzipUnused : List Nat → Except String (List Nat) := fun _ => .error "unused"

/-- C3 counterexample: at a concrete valid request whose RPC fails after
retries, the handler writes `500 DECRYPTION_FAILED`, not the claimed
`502 RPC_ERROR`. -/
theorem getFile_rpc_failure_not_rpc_error :
    resultStatusCode (FileService.GetFile none (.ok ())
        (.error "rpc call failed after 4 attempts: http error 500")
        gunzipUnused sniffTextPlain 0 reqEncSample1).result =
      some (500, "DECRYPTION_FAILED") ∧
    resultStatusCode (FileService.GetFile none (.ok ())
        (.error "rpc call failed after 4 attempts: http error 500")
        gunzipUnused sniffTextPlain 0 reqEncSample1).result ≠
      some (502, "RPC_ERROR") := by decide

def reqRpcFail : FileRequest := ⟨txidSampleA, evkSample1, "vrsctest", "", true⟩

/-- Witness for C3 (amended) at a concrete request. -/
theorem getFile_rpc_failure_decryption_error_witness :
    FileService.GetFile none (.ok ()) (.error "http error 502")
        gunzipUnused sniffTextPlain 7 reqRpcFail =
      ⟨true, .error (NewDecryptionError reqRpcFail.TXID "http error 502")⟩ ∧
    resultStatusCode (FileService.GetFile none (.ok ()) (.error "http error 502")
        gunzipUnused sniffTextPlain 7 reqRpcFail).result =
      some (500, "DECRYPTION_FAILED") :=
  getFile_rpc_failure_decryption_error reqRpcFail none gunzipUnused sniffTextPlain 7
    "http error 502" (by decide) rfl (by decide)

/-- C4: a request with an empty viewing key never issues the decryptdata RPC;
when its other fields pass validation, the cache misses and the chain
resolves, GetFile is rejected with `INVALID_INPUT` on the `evk` field by the
decryptor's validation, before the RPC. -/
theorem getFile_empty_evk_rejected (req : FileRequest) (cacheGet : Option File)
    (chainClient : Except DomainError Unit) (rpcResult : Except String String)
    (gunzip : List Nat → Except String (List Nat)) (sniff : List Nat → String)
    (now : Nat) (he : req.EVK = "") :
    (FileService.GetFile cacheGet chainClient rpcResult gunzip sniff now req).rpcIssued =
      false ∧
    (req.Validate = .ok () → (if req.UseCache then cacheGet else none) = none →
      chainClient = .ok () →
      (FileService.GetFile cacheGet chainClient rpcResult gunzip sniff now req).result =
        .error (NewInvalidInputError "evk" "invalid evk") ∧
      resultStatusCode
          (FileService.GetFile cacheGet chainClient rpcResult gunzip sniff now req).result =
        some (400, "INVALID_INPUT")) := by
  constructor
  · unfold FileService.GetFile
    cases hval : req.Validate with
    | error e => rfl
    | ok u =>
      cases u
      dsimp only
      cases hcg : (if req.UseCache then cacheGet else none) with
      | some f => rfl
      | none =>
        dsimp only
        cases chainClient with
        | error e => rfl
        | ok u =>
          cases u
          dsimp only
          rw [he, decryptData_empty_evk]
          by_cases htx : reTXIDMatch req.TXID = true
          · rw [if_neg (not_not_intro htx)]
          · rw [if_pos htx]
  · intro hval hcg hchain
    have htx : reTXIDMatch req.TXID = true := by
      rw [reTXID_eq_txidPattern]
      exact (validate_ok_patterns req hval).1
    have hmain : FileService.GetFile cacheGet chainClient rpcResult gunzip sniff now req =
        ⟨false, .error (NewInvalidInputError "evk" "invalid evk")⟩ := by
      unfold FileService.GetFile
      rw [hval]
      dsimp only
      rw [hcg]
      dsimp only
      rw [hchain]
      dsimp only
      rw [he, decryptData_empty_evk, if_neg (not_not_intro htx)]
    rw [hmain]
    constructor
    · rfl
    · simp [resultStatusCode, writeErrorStatus, NewInvalidInputError, NewError,
        DomainError.WithDetail]

def reqEmptyEvk : FileRequest := ⟨txidSampleA, "", "vrsc", "", true⟩

/-- Witness for C4: a concrete otherwise-valid request with empty EVK is
rejected with INVALID_INPUT and the RPC is never issued. -/
theorem getFile_empty_evk_rejected_witness :
    (FileService.GetFile none (.ok ()) (.ok "48656c6c6f") gunzipUnused sniffTextPlain 0
        reqEmptyEvk).rpcIssued = false ∧
    (FileService.GetFile none (.ok ()) (.ok "48656c6c6f") gunzipUnused sniffTextPlain 0
        reqEmptyEvk).result = .error (NewInvalidInputError "evk" "invalid evk") ∧
    resultStatusCode (FileService.GetFile none (.ok ()) (.ok "48656c6c6f") gunzipUnused
        sniffTextPlain 0 reqEmptyEvk).result = some (400, "INVALID_INPUT") := by
  obtain ⟨h1, h2⟩ := getFile_empty_evk_rejected reqEmptyEvk none (.ok ()) (.ok "48656c6c6f")
    gunzipUnused sniffTextPlain 0 rfl
  obtain ⟨h3, h4⟩ := h2 (by decide) rfl rfl
  exact ⟨h1, h3, h4⟩

/-- C9: when the decrypted payload bears the gzip magic but `Decompress`
fails for any reason, `GetFile` does not fail: it returns a `File` whose
`Content` is the raw still-compressed payload. -/
theorem getFile_decompression_fallback (req : FileRequest) (cacheGet : Option File)
    (rpcResult : Except String String) (gunzip : List Nat → Except String (List Nat))
    (sniff : List Nat → String) (now : Nat) (payload : List Nat) (issued : Bool)
    (e : DomainError)
    (hv : req.Validate = .ok ())
    (hcache : (if req.UseCache then cacheGet else none) = none)
    (hdec : Decryptor.DecryptData rpcResult req.TXID req.EVK = ⟨issued, .ok payload⟩)
    (hgz : isGzippedBytes payload = true)
    (hfail : serviceDecompressor.Decompress gunzip payload = .error e) :
    (FileService.GetFile cacheGet (.ok ()) rpcResult gunzip sniff now req).result =
      .ok { TXID := req.TXID, ChainID := req.ChainID, Content := payload,
            Metadata := some (Detector.DetectType sniff payload req.Filename),
            RetrievedAt := now } := by
  unfold FileService.GetFile
  rw [hv]
  dsimp only
  rw [hcache]
  dsimp only
  rw [hdec]
  dsimp only
  unfold decompressOrRaw
  rw [hfail]

def gunzipMalformed : List Nat → Except String (List Nat) :=
  fun _ => .error "gzip: invalid header"

/-- Witness for C9: a payload with the gzip magic whose stream is malformed is
delivered raw. -/
theorem getFile_decompression_fallback_witness :
    (FileService.GetFile none (.ok ()) (.ok "1f8b05") gunzipMalformed sniffTextPlain 3
        reqEncSample1).result =
      .ok { TXID := reqEncSample1.TXID, ChainID := reqEncSample1.ChainID,
            Content := [31, 139, 5],
            Metadata := some (Detector.DetectType sniffTextPlain [31, 139, 5]
              reqEncSample1.Filename),
            RetrievedAt := 3 } :=
  getFile_decompression_fallback reqEncSample1 none (.ok "1f8b05") gunzipMalformed
    sniffTextPlain 3 [31, 139, 5] true
    (NewDecompressionError "gzip decompression failed: gzip: invalid header")
    (by decide) rfl (by decide) (by decide) (by decide)

/-! ## internal/cache: FilesystemCache -/

/-- Cache configuration after `NewFilesystemCache` defaulting; sizes in bytes,
times in ticks. -/
structure FsCacheConfig where
  maxSize : Int
  ttl : Nat
deriving DecidableEq, Repr

/-- One `.bin` file of the cache directory.  `getPaths` derives the path from
`SHA256(key)`, which is injective in the key, so the path is modelled by the
key itself. -/
structure CacheEntry where
  key : String
  content : List Nat
  mtime : Nat
deriving DecidableEq, Repr

/-- The cache directory and the `FilesystemCache` counters: `entries` are the
`.bin` files, `metas` the `.meta` files (their JSON payload modelled by the
metadata value it encodes), `sizeCtr`/`itemsCtr` the atomic size/item
counters, `hits`/`misses` the metric counters. -/
structure FsCacheState where
  entries : List CacheEntry
  metas : List (String × FileMetadata)
  sizeCtr : Int
  itemsCtr : Int
  hits : Nat
  misses : Nat
deriving DecidableEq, Repr

/-- A fresh cache over an empty directory (`calculateSize` stores 0/0). -/
def emptyFsCache : FsCacheState := ⟨[], [], 0, 0, 0, 0⟩

def entrySize (e : CacheEntry) : Int := (e.content.length : Int)

/-- The total size of the `.bin` files on disk — what `calculateSize` walks. -/
def diskSize (s : FsCacheState) : Int := (s.entries.map entrySize).sum

/-- `os.Stat` on the content path. -/
def findEntry (s : FsCacheState) (key : String) : Option CacheEntry :=
  s.entries.find? (fun e => e.key == key)

/-- `Get`'s outcome: `domain.ErrCacheMiss` is the designated miss marker, any
hit carries the rebuilt `File`. -/
inductive CacheGetResult where
  | hit (f : File)
  | miss
deriving DecidableEq, Repr

/-- `FilesystemCache.Get`: miss on absence; an entry older than `ttl` is
deleted (content and metadata) and reported as a miss; otherwise the file is
rebuilt from the `.bin` content and the optional `.meta` (zero-value metadata
when absent), with `RetrievedAt = time.Now()`. -/
def FilesystemCache.Get (cfg : FsCacheConfig) (s : FsCacheState) (key : String)
    (now : Nat) : CacheGetResult × FsCacheState :=
  match findEntry s key with
  | none => (.miss, { s with misses := s.misses + 1 })
  | some e =>
    if cfg.ttl < now - e.mtime then
      (.miss, { s with misses := s.misses + 1,
                       entries := s.entries.filter (fun x => x.key != key),
                       metas := s.metas.filter (fun p => p.1 != key) })
    else
      (.hit { TXID := "", ChainID := "", Content := e.content,
              Metadata := some ((s.metas.lookup key).getD default),
              RetrievedAt := now },
       { s with hits := s.hits + 1 })

/-- `modTime.After` (strict). -/
def mtimeAfter (a b : CacheEntry) : Bool := b.mtime < a.mtime

/-- One adjacent-swap pass of `evictOldest`'s bubble sort, carrying the
currently risen element. -/
def bubblePassAux (x : CacheEntry) : List CacheEntry → List CacheEntry
  | [] => [x]
  | y :: rest => if mtimeAfter x y then y :: bubblePassAux x rest else x :: bubblePassAux y rest

def bubblePass : List CacheEntry → List CacheEntry
  | [] => []
  | x :: rest => bubblePassAux x rest

def bubbleSortAux : Nat → List CacheEntry → List CacheEntry
  | 0, l => l
  | n + 1, l => bubbleSortAux n (bubblePass l)

/-- The bubble sort of `evictOldest`: oldest mtime first after `length`
passes. -/
def sortByMtime (l : List CacheEntry) : List CacheEntry := bubbleSortAux l.length l

/-- Delete one walked file and its `.meta`, updating the counters with the
walked size (`c.size.Add(-f.size)`, `c.items.Add(-1)`). -/
def evictOne (s : FsCacheState) (f : CacheEntry) : FsCacheState :=
  { entries := s.entries.filter (fun e => e.key != f.key),
    metas := s.metas.filter (fun p => p.1 != f.key),
    sizeCtr := s.sizeCtr - entrySize f,
    itemsCtr := s.itemsCtr - 1,
    hits := s.hits,
    misses := s.misses }

/-- The eviction loop of `evictOldest`: walk the sorted files, deleting until
`freedSize >= neededSize` or no files remain. -/
def evictLoop (neededSize : Int) : List CacheEntry → Int → FsCacheState → FsCacheState
  | [], _, s => s
  | f :: rest, freed, s =>
    if neededSize ≤ freed then s
    else evictLoop neededSize rest (freed + entrySize f) (evictOne s f)

/-- `FilesystemCache.evictOldest`. -/
def FilesystemCache.evictOldest (s : FsCacheState) (neededSize : Int) : FsCacheState :=
  evictLoop neededSize (sortByMtime s.entries) 0 s

/-- `os.WriteFile` on the content path: truncate any existing `.bin` for the
key and write the new bytes; the mtime becomes the write instant. -/
def writeBin (s : FsCacheState) (key : String) (content : List Nat) (now : Nat) :
    FsCacheState :=
  { s with entries := s.entries.filter (fun e => e.key != key) ++ [⟨key, content, now⟩] }

/-- The best-effort `.meta` write: only when metadata is present (a previous
`.meta` for the key survives otherwise). -/
def writeMeta (s : FsCacheState) (key : String) (meta : Option FileMetadata) :
    FsCacheState :=
  match meta with
  | none => s
  | some m => { s with metas := s.metas.filter (fun p => p.1 != key) ++ [(key, m)] }

/-- The unconditional counter bump at the end of `Set`. -/
def addCounters (s : FsCacheState) (fileSize : Int) : FsCacheState :=
  { s with sizeCtr := s.sizeCtr + fileSize, itemsCtr := s.itemsCtr + 1 }

/-- `FilesystemCache.Set`: evict when the size counter says the new content
does not fit, then write content and (best-effort) metadata and bump the
counters. -/
def FilesystemCache.Set (cfg : FsCacheConfig) (s : FsCacheState) (key : String)
    (file : File) (now : Nat) : FsCacheState :=
  addCounters
    (writeMeta
      (writeBin
        (if cfg.maxSize < s.sizeCtr + (file.Content.length : Int) then
          FilesystemCache.evictOldest s (file.Content.length : Int)
        else s)
        key file.Content now)
      key file.Metadata)
    (file.Content.length : Int)

/-! ## Claims C5 and C7: cache round-trip and TTL expiry -/

theorem find?_filter_append_self (l : List CacheEntry) (key : String) (c : List Nat)
    (t : Nat) :
    ((l.filter (fun e : CacheEntry => e.key != key)) ++
        ([⟨key, c, t⟩] : List CacheEntry)).find? (fun e : CacheEntry => e.key == key) =
      some ⟨key, c, t⟩ := by
  rw [List.find?_append]
  have h1 : (l.filter (fun e : CacheEntry => e.key != key)).find?
      (fun e : CacheEntry => e.key == key) = none := by
    rw [List.find?_eq_none]
    intro x hx
    have hne := List.of_mem_filter hx
    simpa using hne
  rw [h1]
  simp [List.find?]

theorem lookup_filter_ne {β : Type} (l : List (String × β)) (key : String) :
    (l.filter (fun p => p.1 != key)).lookup key = none := by
  induction l with
  | nil => rfl
  | cons a l ih =>
    obtain ⟨k, w⟩ := a
    by_cases h : k = key
    · rw [List.filter_cons, if_neg (by simp [h])]
      exact ih
    · rw [List.filter_cons, if_pos (by simp [h])]
      have hbeq : (key == k) = false := by
        simp only [beq_eq_false_iff_ne]
        exact fun hk => h hk.symm
      simp only [List.lookup, hbeq]
      exact ih

theorem lookup_filter_append_self {β : Type} (l : List (String × β)) (key : String)
    (v : β) :
    ((l.filter (fun p => p.1 != key)) ++ [(key, v)]).lookup key = some v := by
  induction l with
  | nil => simp [List.lookup]
  | cons a l ih =>
    obtain ⟨k, w⟩ := a
    by_cases h : k = key
    · rw [List.filter_cons, if_neg (by simp [h])]
      exact ih
    · rw [List.filter_cons, if_pos (by simp [h])]
      rw [List.cons_append]
      have hbeq : (key == k) = false := by
        simp only [beq_eq_false_iff_ne]
        exact fun hk => h hk.symm
      simp only [List.lookup, hbeq]
      exact ih

/-- C5 (amended): `Set(k, v, ttl)` then `Get(k)` before expiry yields a `File`
whose `Content` is exactly the stored content and whose `Metadata` is the
stored metadata (when present) — but with empty `TXID` and `ChainID` and with
`RetrievedAt` set to the time of the `Get`, not the stored value: the cache
does not store or return the full `File` shape. -/
theorem fs_cache_roundtrip_content (cfg : FsCacheConfig) (s : FsCacheState)
    (key : String) (file : File) (t tGet : Nat) (m : FileMetadata)
    (hmeta : file.Metadata = some m) (hexp : ¬ cfg.ttl < tGet - t) :
    (FilesystemCache.Get cfg (FilesystemCache.Set cfg s key file t) key tGet).1 =
      .hit { TXID := "", ChainID := "", Content := file.Content,
             Metadata := some m, RetrievedAt := tGet } := by
  unfold FilesystemCache.Set FilesystemCache.Get
  rw [hmeta]
  unfold addCounters writeMeta writeBin findEntry
  dsimp only
  rw [find?_filter_append_self]
  dsimp only
  rw [if_neg hexp]
  rw [lookup_filter_append_self]
  rfl

def cfgSample : FsCacheConfig := ⟨1000, 10⟩

def metaSample : FileMetadata := ⟨"a.txt", 3, "text/plain", "txt", "", false, false, none⟩

def fileSample : File := ⟨"aaa", "vrsc", [1, 2, 3], some metaSample, 5⟩

/-- C5 counterexample: at a concrete key and file, `Set` then `Get` does not
return the stored `File`: the `TXID`, `ChainID` and `RetrievedAt` fields are
not preserved by the cache. -/
theorem fs_cache_roundtrip_not_identity :
    (FilesystemCache.Get cfgSample
        (FilesystemCache.Set cfgSample emptyFsCache "k" fileSample 0) "k" 0).1 ≠
      .hit fileSample := by decide

/-- Witness for C5 (amended) at a concrete key and file. -/
theorem fs_cache_roundtrip_content_witness :
    (FilesystemCache.Get cfgSample
        (FilesystemCache.Set cfgSample emptyFsCache "k" fileSample 0) "k" 4).1 =
      .hit { TXID := "", ChainID := "", Content := [1, 2, 3],
             Metadata := some metaSample, RetrievedAt := 4 } :=
  fs_cache_roundtrip_content cfgSample emptyFsCache "k" fileSample 0 4 metaSample rfl
    (by decide)

/-- C7: once the TTL has elapsed (strictly more than `ttl` since the entry's
mtime), `Get` reports a miss — the designated non-error outcome — and deletes
both the `.bin` and the `.meta`, so the entry is gone. -/
theorem fs_cache_ttl_expiry (cfg : FsCacheConfig) (s : FsCacheState) (key : String)
    (e : CacheEntry) (now : Nat)
    (hfind : findEntry s key = some e) (hexp : cfg.ttl < now - e.mtime) :
    (FilesystemCache.Get cfg s key now).1 = .miss ∧
    findEntry (FilesystemCache.Get cfg s key now).2 key = none ∧
    (FilesystemCache.Get cfg s key now).2.metas.lookup key = none := by
  unfold FilesystemCache.Get
  rw [hfind]
  dsimp only
  rw [if_pos hexp]
  refine ⟨rfl, ?_, ?_⟩
  · unfold findEntry
    dsimp only
    rw [List.find?_eq_none]
    intro x hx
    have hne := List.of_mem_filter hx
    simpa using hne
  · dsimp only
    exact lookup_filter_ne s.metas key

/-- Witness for C7: a concrete entry written at tick 0 with `ttl = 10` is a
miss at tick 11 and fully removed. -/
theorem fs_cache_ttl_expiry_witness :
    (FilesystemCache.Get cfgSample
        (FilesystemCache.Set cfgSample emptyFsCache "k" fileSample 0) "k" 11).1 = .miss ∧
    findEntry (FilesystemCache.Get cfgSample
        (FilesystemCache.Set cfgSample emptyFsCache "k" fileSample 0) "k" 11).2 "k" =
      none ∧
    (FilesystemCache.Get cfgSample
        (FilesystemCache.Set cfgSample emptyFsCache "k" fileSample 0) "k" 11).2.metas.lookup
      "k" = none :=
  fs_cache_ttl_expiry cfgSample
    (FilesystemCache.Set cfgSample emptyFsCache "k" fileSample 0) "k"
    ⟨"k", [1, 2, 3], 0⟩ 11 (by decide) (by decide)

/-! ## Claim C1: the size cap under Set sequences -/

def keysOf (l : List CacheEntry) : List String := l.map CacheEntry.key

theorem entrySize_nonneg (e : CacheEntry) : 0 ≤ entrySize e := Int.ofNat_nonneg _

theorem diskSize_nonneg (s : FsCacheState) : 0 ≤ diskSize s := by
  apply List.sum_nonneg
  intro x hx
  obtain ⟨e, _, he⟩ := List.mem_map.mp hx
  rw [← he]
  exact entrySize_nonneg e

theorem bubblePassAux_perm (l : List CacheEntry) : ∀ x,
    List.Perm (bubblePassAux x l) (x :: l) := by
  induction l with
  | nil => intro x; exact List.Perm.refl _
  | cons y rest ih =>
    intro x
    rw [bubblePassAux]
    by_cases h : mtimeAfter x y = true
    · rw [if_pos h]
      exact ((ih x).cons y).trans (List.Perm.swap x y rest)
    · rw [if_neg h]
      exact (ih y).cons x

theorem bubblePass_perm (l : List CacheEntry) : List.Perm (bubblePass l) l := by
  cases l with
  | nil => exact List.Perm.refl _
  | cons x rest => exact bubblePassAux_perm rest x

theorem bubbleSortAux_perm (n : Nat) : ∀ l, List.Perm (bubbleSortAux n l) l := by
  induction n with
  | zero => intro l; exact List.Perm.refl _
  | succ n ih =>
    intro l
    rw [bubbleSortAux]
    exact (ih (bubblePass l)).trans (bubblePass_perm l)

theorem sortByMtime_perm (l : List CacheEntry) : List.Perm (sortByMtime l) l :=
  bubbleSortAux_perm l.length l

theorem filter_key_eq_erase : ∀ (l : List CacheEntry) (f : CacheEntry),
    (keysOf l).Nodup → f ∈ l →
    l.filter (fun e => e.key != f.key) = l.erase f := by
  intro l
  induction l with
  | nil => intro f _ hf; cases hf
  | cons a rest ih =>
    intro f hnd hf
    have hnd2 : a.key ∉ keysOf rest ∧ (keysOf rest).Nodup :=
      List.nodup_cons.mp (by simpa [keysOf] using hnd)
    rw [List.filter_cons]
    by_cases haf : a = f
    · subst haf
      rw [if_neg (by simp), List.erase_cons_head]
      apply List.filter_eq_self.mpr
      intro e he
      simp only [bne_iff_ne, ne_eq]
      intro hke
      exact hnd2.1 (hke ▸ List.mem_map_of_mem CacheEntry.key he)
    · have hfr : f ∈ rest := by
        rcases List.mem_cons.mp hf with h | h
        · exact absurd h.symm haf
        · exact h
      have hka : (a.key != f.key) = true := by
        simp only [bne_iff_ne, ne_eq]
        intro hke
        exact hnd2.1 (hke ▸ List.mem_map_of_mem CacheEntry.key hfr)
      rw [if_pos hka]
      rw [List.erase_cons_tail (by simp [haf])]
      rw [ih f hnd2.2 hfr]

theorem evictLoop_spec (needed : Int) : ∀ (L : List CacheEntry) (freed : Int)
    (s : FsCacheState), List.Perm s.entries L → (keysOf s.entries).Nodup →
    (keysOf (evictLoop needed L freed s).entries).Nodup ∧
    (evictLoop needed L freed s).sizeCtr - diskSize (evictLoop needed L freed s) =
      s.sizeCtr - diskSize s ∧
    diskSize (evictLoop needed L freed s) ≤ max (diskSize s + freed - needed) 0 := by
  intro L
  induction L with
  | nil =>
    intro freed s hperm hnd
    have hempty : s.entries = [] := hperm.eq_nil
    rw [evictLoop]
    refine ⟨hnd, rfl, ?_⟩
    have : diskSize s = 0 := by
      unfold diskSize
      rw [hempty]
      rfl
    rw [this]
    exact le_max_right _ _
  | cons f rest ih =>
    intro freed s hperm hnd
    rw [evictLoop]
    by_cases hstop : needed ≤ freed
    · rw [if_pos hstop]
      refine ⟨hnd, rfl, ?_⟩
      have h1 : diskSize s ≤ diskSize s + freed - needed := by omega
      exact le_trans h1 (le_max_left _ _)
    · rw [if_neg hstop]
      have hmem : f ∈ s.entries := hperm.mem_iff.mpr (List.mem_cons_self f rest)
      have hfilter : s.entries.filter (fun e => e.key != f.key) = s.entries.erase f :=
        filter_key_eq_erase s.entries f hnd hmem
      have hperm2 : List.Perm s.entries (f :: s.entries.erase f) :=
        List.perm_cons_erase hmem
      have hsum : diskSize s = entrySize f + (diskSize { s with
          entries := s.entries.erase f }) := by
        unfold diskSize
        have := (hperm2.map entrySize).sum_eq
        simpa using this
      have hds : diskSize (evictOne s f) = diskSize s - entrySize f := by
        unfold evictOne diskSize
        dsimp only
        rw [hfilter]
        unfold diskSize at hsum
        dsimp only at hsum
        omega
      have hnd2 : (keysOf (evictOne s f).entries).Nodup := by
        unfold evictOne keysOf
        dsimp only
        rw [hfilter]
        exact List.Nodup.sublist ((s.entries.erase_sublist f).map CacheEntry.key) hnd
      have hperm3 : List.Perm (evictOne s f).entries rest := by
        unfold evictOne
        dsimp only
        rw [hfilter]
        exact (hperm2.symm.trans hperm).cons_inv
      obtain ⟨g1, g2, g3⟩ := ih (freed + entrySize f) (evictOne s f) hperm3 hnd2
      have hctr : (evictOne s f).sizeCtr = s.sizeCtr - entrySize f := rfl
      refine ⟨g1, ?_, ?_⟩
      · rw [g2, hctr, hds]
        omega
      · rw [hds] at g3
        have harith : diskSize s - entrySize f + (freed + entrySize f) - needed =
            diskSize s + freed - needed := by ring
        rw [harith] at g3
        exact g3

theorem evictOldest_spec (s : FsCacheState) (needed : Int)
    (hnd : (keysOf s.entries).Nodup) :
    (keysOf (FilesystemCache.evictOldest s needed).entries).Nodup ∧
    (FilesystemCache.evictOldest s needed).sizeCtr -
        diskSize (FilesystemCache.evictOldest s needed) = s.sizeCtr - diskSize s ∧
    diskSize (FilesystemCache.evictOldest s needed) ≤ max (diskSize s - needed) 0 := by
  obtain ⟨a, b, c⟩ := evictLoop_spec needed (sortByMtime s.entries) 0 s
    (sortByMtime_perm s.entries).symm hnd
  exact ⟨a, b, by simpa using c⟩

theorem writeMeta_entries (s : FsCacheState) (key : String) (m : Option FileMetadata) :
    (writeMeta s key m).entries = s.entries := by
  cases m <;> rfl

theorem writeMeta_sizeCtr (s : FsCacheState) (key : String) (m : Option FileMetadata) :
    (writeMeta s key m).sizeCtr = s.sizeCtr := by
  cases m <;> rfl

/-- The invariant the size cap rests on: distinct keys on disk, the atomic
size counter never undercounting the disk, and the disk within the cap. -/
def CacheInv (cfg : FsCacheConfig) (s : FsCacheState) : Prop :=
  (keysOf s.entries).Nodup ∧ diskSize s ≤ s.sizeCtr ∧ diskSize s ≤ cfg.maxSize

theorem set_write_inv (cfg : FsCacheConfig) (s1 : FsCacheState) (key : String)
    (file : File) (now : Nat)
    (hnd : (keysOf s1.entries).Nodup)
    (hctr : diskSize s1 ≤ s1.sizeCtr)
    (hcap : diskSize s1 + (file.Content.length : Int) ≤ cfg.maxSize) :
    CacheInv cfg (addCounters (writeMeta (writeBin s1 key file.Content now) key
      file.Metadata) (file.Content.length : Int)) := by
  have hent : (addCounters (writeMeta (writeBin s1 key file.Content now) key
      file.Metadata) (file.Content.length : Int)).entries =
      s1.entries.filter (fun e => e.key != key) ++ [⟨key, file.Content, now⟩] := by
    unfold addCounters
    dsimp only
    rw [writeMeta_entries]
    rfl
  have hsc : (addCounters (writeMeta (writeBin s1 key file.Content now) key
      file.Metadata) (file.Content.length : Int)).sizeCtr =
      s1.sizeCtr + (file.Content.length : Int) := by
    unfold addCounters
    dsimp only
    rw [writeMeta_sizeCtr]
    rfl
  have hfil_sub : List.Sublist (s1.entries.filter (fun e => e.key != key)) s1.entries :=
    List.filter_sublist s1.entries
  have hfil_disk : ((s1.entries.filter (fun e => e.key != key)).map entrySize).sum ≤
      diskSize s1 := by
    apply List.Sublist.sum_le_sum (hfil_sub.map entrySize)
    intro x hx
    obtain ⟨e, _, he⟩ := List.mem_map.mp hx
    rw [← he]
    exact entrySize_nonneg e
  have hdisk : diskSize (addCounters (writeMeta (writeBin s1 key file.Content now) key
      file.Metadata) (file.Content.length : Int)) =
      ((s1.entries.filter (fun e => e.key != key)).map entrySize).sum +
        (file.Content.length : Int) := by
    unfold diskSize
    rw [hent, List.map_append, List.sum_append]
    simp [entrySize]
  refine ⟨?_, ?_, ?_⟩
  · rw [hent]
    unfold keysOf
    rw [List.map_append]
    apply List.nodup_append.mpr
    refine ⟨List.Nodup.sublist (hfil_sub.map CacheEntry.key) hnd, by simp, ?_⟩
    intro a ha hb
    simp only [List.map_cons, List.map_nil, List.mem_singleton] at hb
    obtain ⟨e, hef, hek⟩ := List.mem_map.mp ha
    have := List.of_mem_filter hef
    rw [hek, hb] at this
    simp at this
  · rw [hdisk, hsc]
    omega
  · rw [hdisk]
    omega

theorem set_preserves_inv (cfg : FsCacheConfig) (s : FsCacheState) (key : String)
    (file : File) (now : Nat) (hinv : CacheInv cfg s)
    (hfit : (file.Content.length : Int) ≤ cfg.maxSize) :
    CacheInv cfg (FilesystemCache.Set cfg s key file now) := by
  obtain ⟨hnd, hctr, hcap⟩ := hinv
  unfold FilesystemCache.Set
  by_cases hev : cfg.maxSize < s.sizeCtr + (file.Content.length : Int)
  · rw [if_pos hev]
    obtain ⟨e1, e2, e3⟩ := evictOldest_spec s (file.Content.length : Int) hnd
    have hmax : max (diskSize s - (file.Content.length : Int)) 0 ≤
        cfg.maxSize - (file.Content.length : Int) := max_le (by omega) (by omega)
    have hb := le_trans e3 hmax
    exact set_write_inv cfg _ key file now e1 (by omega) (by omega)
  · rw [if_neg hev]
    exact set_write_inv cfg s key file now hnd hctr (by omega)

/-- A sequence of `Set` calls: each operation is `(key, file, instant)`. -/
def applySets (cfg : FsCacheConfig) : List (String × File × Nat) → FsCacheState → FsCacheState
  | [], s => s
  | op :: rest, s => applySets cfg rest (FilesystemCache.Set cfg s op.1 op.2.1 op.2.2)

theorem applySets_inv (cfg : FsCacheConfig) :
    ∀ (ops : List (String × File × Nat)) (s : FsCacheState), CacheInv cfg s →
    (∀ op ∈ ops, (op.2.1.Content.length : Int) ≤ cfg.maxSize) →
    CacheInv cfg (applySets cfg ops s) := by
  intro ops
  induction ops with
  | nil => intro s hinv _; exact hinv
  | cons op rest ih =>
    intro s hinv hops
    rw [applySets]
    exact ih (FilesystemCache.Set cfg s op.1 op.2.1 op.2.2)
      (set_preserves_inv cfg s op.1 op.2.1 op.2.2 hinv
        (hops op (List.mem_cons_self op rest)))
      (fun q hq => hops q (List.mem_cons_of_mem op hq))

/-- C1 (amended): starting from an empty cache, after any sequence of `Set`
calls in which every stored content is at most `maxSize` bytes, the total
size of the `.bin` files on disk is at most `maxSize` (and since every prefix
of such a sequence is such a sequence, the bound holds after every `Set`).
The restriction to contents of at most `maxSize` bytes is necessary: a `Set`
whose content alone exceeds `maxSize` writes the file after eviction has
freed everything it can, leaving the cache over the cap. -/
theorem fs_cache_size_cap (cfg : FsCacheConfig) (ops : List (String × File × Nat))
    (hmax : 0 ≤ cfg.maxSize)
    (hops : ∀ op ∈ ops, (op.2.1.Content.length : Int) ≤ cfg.maxSize) :
    diskSize (applySets cfg ops emptyFsCache) ≤ cfg.maxSize :=
  (applySets_inv cfg ops emptyFsCache ⟨by simp [keysOf, emptyFsCache], le_refl 0, hmax⟩
    hops).2.2

def cfgTiny : FsCacheConfig := ⟨1, 10⟩

def fileTwoBytes : File := ⟨"t", "c", [0, 0], none, 0⟩

/-- C1 counterexample: one `Set` of a 2-byte content against `maxSize = 1`
leaves 2 bytes on disk — the eviction loop runs out of files and `Set` writes
the oversized content anyway, so the cap is not restored. -/
theorem fs_cache_size_cap_violated :
    ¬ diskSize (FilesystemCache.Set cfgTiny emptyFsCache "k" fileTwoBytes 0) ≤
      cfgTiny.maxSize := by decide

def fileSixBytes : File := ⟨"t1", "c", [1, 2, 3, 4, 5, 6], none, 0⟩

def fileSevenBytes : File := ⟨"t2", "c", [1, 2, 3, 4, 5, 6, 7], none, 0⟩

/-- Witness for C1 (amended): two sets of 6 and 7 bytes against a 10-byte cap
(the second triggers eviction of the first) end within the cap. -/
theorem fs_cache_size_cap_witness :
    diskSize (applySets ⟨10, 5⟩
      [("a", fileSixBytes, 0), ("b", fileSevenBytes, 1)] emptyFsCache) ≤
      (⟨10, 5⟩ : FsCacheConfig).maxSize :=
  fs_cache_size_cap ⟨10, 5⟩ [("a", fileSixBytes, 0), ("b", fileSevenBytes, 1)]
    (by decide) (by decide)
